import Mathlib

/-!
Shallow embedding of the jon-circle-app front-end scripts and the
`memory_media` SQL migration, with theorems checking the natural-language
specification against the code.

Each section embeds one script (or the SQL schema) faithfully:
JavaScript strings are Lean `String`s, JS truthiness on strings/options is
made explicit, machine-independent string operations (`toLowerCase`,
`includes`, `trim`, the extension regex) are modelled character-list-wise.
-/

/- ===================================================================
   JavaScript string primitives used by several scripts.
   =================================================================== -/

/-- Model of `String.prototype.toLowerCase` (character-wise lowering). -/
def jsToLower (s : String) : String := ⟨s.data.map Char.toLower⟩

/-- Helper for `includes`: does the second list occur at the head of the first? -/
def startsWithList : List Char → List Char → Bool
  | _, [] => true
  | [], _ :: _ => false
  | a :: as, b :: bs => (a == b) && startsWithList as bs

/-- Helper for `includes`: does the second list occur contiguously in the first? -/
def containsList : List Char → List Char → Bool
  | [], needle => needle.isEmpty
  | h :: t, needle => startsWithList (h :: t) needle || containsList t needle

/-- Model of `String.prototype.includes`: substring containment. -/
def jsIncludes (hay needle : String) : Bool := containsList hay.data needle.data

/-- Helper: does the list end with the given suffix? -/
def endsWithList (l suffix : List Char) : Bool :=
  startsWithList l.reverse suffix.reverse

/-- Model of `String.prototype.trim`: strip leading and trailing
whitespace. -/
def jsTrim (s : String) : String :=
  ⟨((s.data.dropWhile Char.isWhitespace).reverse.dropWhile
      Char.isWhitespace).reverse⟩

/- ===================================================================
   export.js — escapeHtml (lines 4-9).

   `function escapeHtml(text) { if (!text) return '';
      const div = document.createElement('div');
      div.textContent = text; return div.innerHTML; }`

   The DOM textContent/innerHTML round trip is modelled as standard HTML
   text-node serialisation: the markup-significant characters are replaced
   by their entities, all other characters pass through unchanged.
   =================================================================== -/

/-- Serialisation of one character of a DOM text node. -/
def escapeChar (c : Char) : List Char :=
  if c = '&' then "&amp;".data
  else if c = '<' then "&lt;".data
  else if c = '>' then "&gt;".data
  else [c]

/-- Model of `escapeHtml` from export.js. The argument is `none` for a
`null`/`undefined` argument; `if (!text) return ''` also maps the empty
string (falsy in JS) to the empty string. -/
def escapeHtml (text : Option String) : String :=
  match text with
  | none => ""
  | some s => if s = "" then "" else ⟨s.data.flatMap escapeChar⟩

/- ===================================================================
   timeline.js — loadMemoriesWithSearch (lines 82-115), client-side filter:

   `let filteredMemories = memories;
    if (searchTerm) {
      const searchLower = searchTerm.toLowerCase();
      filteredMemories = memories.filter(memory =>
        memory.text.toLowerCase().includes(searchLower) ||
        (memory.category && memory.category.toLowerCase().includes(searchLower)) ||
        (memory.year && memory.year.toString().includes(searchTerm)));
    }`
   =================================================================== -/

/-- Memory record as the timeline script reads it: `text` a string,
`category` a string or null, `year` a number or null. -/
structure Memory where
  text : String
  category : Option String
  year : Option Int
deriving DecidableEq, Repr

/-- Body of the filter predicate in `loadMemoriesWithSearch`.  JS truthiness
is explicit: `memory.category &&` is false for the empty string, and
`memory.year &&` is false for the number 0. -/
def memoryMatches (term : String) (m : Memory) : Bool :=
  jsIncludes (jsToLower m.text) (jsToLower term) ||
  (match m.category with
   | some c => (c != "") && jsIncludes (jsToLower c) (jsToLower term)
   | none => false) ||
  (match m.year with
   | some y => (y != 0) && jsIncludes (toString y) term
   | none => false)

/-- The client-side selection performed by `loadMemoriesWithSearch`:
`if (searchTerm)` guards the filter, so the empty term selects everything. -/
def loadMemoriesWithSearch (term : String) (memories : List Memory) : List Memory :=
  if term = "" then memories else memories.filter (memoryMatches term)

/-- Selection predicate following the SPEC's words for C8 (for comparison
with `memoryMatches`): text contains the term case-insensitively, or the
category contains the term case-insensitively, or the year's string
representation contains the term. -/
def claimMatchesC8 (term : String) (m : Memory) : Bool :=
  jsIncludes (jsToLower m.text) (jsToLower term) ||
  (match m.category with
   | some c => jsIncludes (jsToLower c) (jsToLower term)
   | none => false) ||
  (match m.year with
   | some y => jsIncludes (toString y) term
   | none => false)

/-- Amended predicate for C8: as the claim, except that the year clause
additionally requires the year to be present and nonzero (JS truthiness
of `memory.year &&`). -/
def amendedMatchesC8 (term : String) (m : Memory) : Bool :=
  jsIncludes (jsToLower m.text) (jsToLower term) ||
  (match m.category with
   | some c => jsIncludes (jsToLower c) (jsToLower term)
   | none => false) ||
  (match m.year with
   | some y => (y != 0) && jsIncludes (toString y) term
   | none => false)

/- ===================================================================
   capture.js — saveMemory (lines 35-103).

   Reads `memory-text` / `memory-date`, rejects an empty trimmed text with
   an alert, otherwise PUTs (when `dataset.editingId` is set) or POSTs the
   memory; on a parsed `status === 'success'` it clears both fields,
   deletes the editing marker and switches to the timeline tab; on any
   other parsed status it alerts `'Error: ' + data.message`; a fetch or
   JSON-parse failure lands in the catch block and alerts a generic
   message.  The DOM state the function touches is modelled explicitly.
   =================================================================== -/

/-- Form and tab state read and written by `saveMemory`. -/
structure CaptureState where
  memoryText : String
  memoryDate : String
  editingId : Option String
  currentTab : String
deriving DecidableEq, Repr

/-- Outcome of the `fetch` + `response.json()` pair: a parsed JSON body
with `status` and `message` fields, a body that fails to parse, or a
network failure.  The last two both throw and are caught by the
surrounding try/catch. -/
inductive FetchOutcome where
  | ok (status message : String)
  | parseFailure
  | networkFailure
deriving DecidableEq, Repr

/-- Is the outcome a parsed body with `status === 'success'`? -/
def FetchOutcome.isSuccess : FetchOutcome → Bool
  | .ok s _ => s == "success"
  | _ => false

/-- Alert text produced by `saveMemory` on each non-success outcome. -/
def errorAlertText : FetchOutcome → String
  | .ok _ m => "Error: " ++ m
  | _ => "Failed to save memory. Please try again."

/-- Result of one `saveMemory` call: the resulting DOM state, the alerts
shown, and the HTTP requests issued. -/
structure SaveOutcome where
  state : CaptureState
  alerts : List String
  requests : List String
deriving DecidableEq, Repr

/-- Model of `saveMemory` from capture.js. -/
def saveMemory (s : CaptureState) (resp : FetchOutcome) : SaveOutcome :=
  let text := jsTrim s.memoryText
  if text = "" then
    ⟨s, ["Please write a memory before saving"], []⟩
  else
    let req := match s.editingId with
      | some id => "PUT /api/memories/" ++ id
      | none => "POST /api/memories/save"
    match resp with
    | .ok status msg =>
      if status = "success" then
        ⟨⟨"", "", none, "timeline"⟩,
         [if s.editingId.isSome then "Memory updated!" else "Memory saved!"],
         [req]⟩
      else
        ⟨s, ["Error: " ++ msg], [req]⟩
    | .parseFailure => ⟨s, ["Failed to save memory. Please try again."], [req]⟩
    | .networkFailure => ⟨s, ["Failed to save memory. Please try again."], [req]⟩

/- ===================================================================
   media.js (src/unnamed/part_002) — MediaManager.

   handleFileSelect (lines 62-96): filters the chosen files by MIME type
   or filename extension, rejects an all-invalid selection with an error
   banner (leaving the previous selection in place), and drops files over
   the 50 MB limit with an error banner naming them.

   handleUpload (lines 242-333): guarded by an empty-selection check and
   the `uploadInProgress` flag; uploads each selected file with one POST,
   tallying one success or one error (with one error string) per file,
   then clears the flag and shows summary banners.
   =================================================================== -/

/-- File as the script sees it: `name`, MIME `type`, `size` in bytes. -/
structure MFile where
  name : String
  type : String
  size : Nat
deriving DecidableEq, Repr

/-- The `allowedTypes` list of `handleFileSelect`. -/
def allowedTypes : List String :=
  ["image/jpeg", "image/png", "image/gif", "image/webp",
   "application/pdf", "audio/mpeg", "audio/wav",
   "video/mp4", "video/quicktime"]

/-- Extensions accepted by the regex
`/\.(jpg|jpeg|png|gif|webp|pdf|mp3|wav|mp4|mov|avi)$/` applied to the
lowercased file name. -/
def allowedExts : List String :=
  ["jpg", "jpeg", "png", "gif", "webp", "pdf", "mp3", "wav", "mp4", "mov", "avi"]

/-- Does the lowercased name end in a dot followed by an allowed extension
(the anchored regex of `handleFileSelect`)? -/
def extRegexMatches (name : String) : Bool :=
  allowedExts.any fun e => endsWithList (jsToLower name).data ('.' :: e.data)

/-- The validity predicate of `handleFileSelect`:
`allowedTypes.includes(file.type) || file.name.toLowerCase().match(...)`. -/
def isValidFile (f : MFile) : Bool :=
  allowedTypes.contains f.type || extRegexMatches f.name

/-- Size cap `50 * 1024 * 1024` of `handleFileSelect`. -/
def maxFileSize : Nat := 50 * 1024 * 1024

/-- Model of `MediaManager.handleFileSelect`: takes the current
`selectedFiles` and the files of the event, returns the new
`selectedFiles` and the `(kind, text)` banners shown. -/
def handleFileSelect (old input : List MFile) :
    List MFile × List (String × String) :=
  let validFiles := input.filter isValidFile
  if validFiles.isEmpty then
    (old, [("error",
      "No valid files selected. Please select images, PDFs, audio, or video files.")])
  else
    let oversizedFiles := validFiles.filter fun f => decide (maxFileSize < f.size)
    if oversizedFiles.isEmpty then
      (validFiles, [])
    else
      (validFiles.filter fun f => decide (f.size ≤ maxFileSize),
       [("error", "Some files exceed 50MB limit: "
          ++ String.intercalate ", " (oversizedFiles.map MFile.name))])

/-- Outcome of one `/api/media/upload` POST: parsed OK response with
`status === 'success'`, a responded-but-failed upload (non-ok status or
non-success body), or a thrown fetch/parse error. -/
inductive UploadOutcome where
  | success
  | httpFailure (message : String)
  | exception (message : String)
deriving DecidableEq, Repr

/-- Tallies and request trace of the upload loop of `handleUpload`. -/
structure UploadRun where
  successCount : Nat
  errorCount : Nat
  errors : List String
  requests : List String
deriving DecidableEq, Repr

/-- The `for (const file of this.selectedFiles)` loop of `handleUpload`:
one POST per file, one success or one error tally (with one error string)
per file, no retry. -/
def uploadLoop : List MFile → (MFile → UploadOutcome) → UploadRun
  | [], _ => ⟨0, 0, [], []⟩
  | f :: fs, outcome =>
    let rest := uploadLoop fs outcome
    match outcome f with
    | .success =>
      ⟨rest.successCount + 1, rest.errorCount, rest.errors, f.name :: rest.requests⟩
    | .httpFailure m =>
      ⟨rest.successCount, rest.errorCount + 1,
       (f.name ++ ": " ++ m) :: rest.errors, f.name :: rest.requests⟩
    | .exception m =>
      ⟨rest.successCount, rest.errorCount + 1,
       (f.name ++ ": " ++ m) :: rest.errors, f.name :: rest.requests⟩

/-- The MediaManager state `handleUpload` reads and writes. -/
structure MMState where
  selectedFiles : List MFile
  uploadInProgress : Bool
deriving DecidableEq, Repr

/-- Observable events of one `handleUpload` invocation, in program order. -/
inductive MMEvent where
  | setFlag
  | request (name : String)
  | clearFlag
  | message (kind text : String)
deriving DecidableEq, Repr

/-- The upload requests contained in an event trace. -/
def eventRequests (evs : List MMEvent) : List String :=
  evs.filterMap fun e => match e with
    | .request n => some n
    | _ => none

/-- Model of `MediaManager.handleUpload`: given the state and the per-file
server outcome, returns the new state and the ordered event trace
(`uploadInProgress = true` write, one request per file, the
`uploadInProgress = false` write, then the summary banners). -/
def handleUpload (st : MMState) (outcome : MFile → UploadOutcome) :
    MMState × List MMEvent :=
  if st.selectedFiles.isEmpty then
    (st, [.message "error" "Please select files to upload"])
  else if st.uploadInProgress then
    (st, [])
  else
    let r := uploadLoop st.selectedFiles outcome
    let msgs : List MMEvent :=
      (if 0 < r.successCount then
        [MMEvent.message "success"
          ("Successfully uploaded " ++ toString r.successCount ++ " file(s)")]
       else []) ++
      (if 0 < r.errorCount then
        [MMEvent.message "error"
          ("Failed to upload " ++ toString r.errorCount ++ " file(s): "
            ++ String.intercalate "; " r.errors)]
       else [])
    (⟨if 0 < r.successCount then [] else st.selectedFiles, false⟩,
     .setFlag :: (r.requests.map MMEvent.request ++ .clearFlag :: msgs))

/- ===================================================================
   MediaLinker (src/unnamed/part_001) — moveUp / moveDown (lines 84-117).

   `const moveUp = (index) => {
      if (index === 0) return;
      const newOrder = [...linkedMedia];
      [newOrder[index - 1], newOrder[index]] = [newOrder[index], newOrder[index - 1]];
      handleReorder(newOrder); };`
   and symmetrically `moveDown` guarded by `index === linkedMedia.length - 1`.
   A `none` result means the guard fired: no reorder request is issued and
   `linkedMedia` is untouched; `some l` is the new order sent to
   `handleReorder` and stored on success.
   =================================================================== -/

/-- Destructuring swap of the adjacent entries at positions `i` and `i+1`
(identity when `i+1` is out of range). -/
def swapAdjacent {α : Type} : List α → Nat → List α
  | a :: b :: t, 0 => b :: a :: t
  | a :: t, n + 1 => a :: swapAdjacent t n
  | l, _ => l

/-- Model of `MediaLinker.moveUp`. -/
def moveUp {α : Type} (linkedMedia : List α) (index : Nat) : Option (List α) :=
  if index = 0 then none
  else some (swapAdjacent linkedMedia (index - 1))

/-- Model of `MediaLinker.moveDown`. -/
def moveDown {α : Type} (linkedMedia : List α) (index : Nat) : Option (List α) :=
  if index = linkedMedia.length - 1 then none
  else some (swapAdjacent linkedMedia index)

/- ===================================================================
   export.js — chapter editing (lines 471-530 editChapter, 544-557
   saveChapterEdit, 559-584 cancelChapterEdit) over the state
   `biographyState.originalTexts` (a map keyed by `model-chapter-index`
   element ids) and the chapter's displayed narrative text.

   `editChapter`: `const currentText = narrativeEl.textContent;
      if (!biographyState.originalTexts[chapterId])
        biographyState.originalTexts[chapterId] = currentText;`
   then replaces the narrative with a textarea initialised to the current
   text.  `cancelChapterEdit`:
   `const originalText = biographyState.originalTexts[chapterId] || '';
    narrativeEl.textContent = originalText;` then clears the
   unsaved-edits flag via `checkUnsavedEdits()`.
   =================================================================== -/

/-- Displayed state of one chapter: the narrative text and, while the edit
interface is open, the textarea contents. -/
structure ChapterView where
  narrative : String
  editor : Option String
deriving DecidableEq, Repr

/-- The slice of `biographyState` the chapter-editing functions use. -/
structure BioState where
  originalTexts : String → Option String
  hasUnsavedEdits : Bool

/-- JS truthiness of a map lookup: `undefined` and the empty string are
falsy. -/
def truthyStr : Option String → Bool
  | none => false
  | some s => s != ""

/-- Model of `editChapter`: captures the displayed text, stores it in
`originalTexts[chapterId]` unless a truthy entry is already there, and
opens the textarea initialised to the captured text. -/
def editChapter (st : BioState) (ch : ChapterView) (chapterId : String) :
    BioState × ChapterView :=
  let currentText := ch.narrative
  let st' :=
    if truthyStr (st.originalTexts chapterId) then st
    else ⟨fun k => if k = chapterId then some currentText else st.originalTexts k,
          st.hasUnsavedEdits⟩
  (st', ⟨ch.narrative, some currentText⟩)

/-- Model of typing into the edit textarea: only the textarea contents and
the unsaved-edits flag change. -/
def setTextarea (ch : ChapterView) (s : String) : ChapterView :=
  ⟨ch.narrative, ch.editor.map fun _ => s⟩

/-- Model of `cancelChapterEdit`: restores the narrative from
`originalTexts[chapterId] || ''`, closes the editor, and resets the
unsaved-edits flag (`checkUnsavedEdits`). -/
def cancelChapterEdit (st : BioState) (_ch : ChapterView) (chapterId : String) :
    BioState × ChapterView :=
  let originalText := match st.originalTexts chapterId with
    | some t => t
    | none => ""
  (⟨st.originalTexts, false⟩, ⟨originalText, none⟩)

/- ===================================================================
   migration_add_memory_media.sql — the memory_media table.

   `CREATE TABLE IF NOT EXISTS memory_media (
      id INTEGER PRIMARY KEY AUTOINCREMENT,
      memory_id INTEGER NOT NULL,
      media_id INTEGER NOT NULL,
      display_order INTEGER DEFAULT 0,
      created_at TIMESTAMP DEFAULT CURRENT_TIMESTAMP,
      FOREIGN KEY (memory_id) REFERENCES memories(id) ON DELETE CASCADE,
      FOREIGN KEY (media_id) REFERENCES media(id) ON DELETE CASCADE,
      UNIQUE(memory_id, media_id));`

   Modelled from the spec: the SQL engine enforcing these constraints and
   the backend link/unlink endpoints (`POST`/`DELETE`
   `/api/memories/:id/media/:mid`, called by MediaLinker in
   src/unnamed/part_001) are not part of this repository; their relational
   semantics is modelled from the declared schema and the spec's
   description (uniqueness of a (memory, media) pair, foreign references,
   cascade deletion with the parents).  An INSERT that would violate a
   constraint is rejected, leaving the database unchanged.
   =================================================================== -/

/-- Row of the `memory_media` table (the surrogate key and timestamp are
irrelevant to the claims and omitted). -/
structure MMRow where
  memory_id : Nat
  media_id : Nat
  display_order : Int
deriving DecidableEq, Repr

/-- The (memory_id, media_id) pair of a row, subject to the UNIQUE
constraint. -/
def MMRow.pair (r : MMRow) : Nat × Nat := (r.memory_id, r.media_id)

/-- Database state: the ids of the `memories` and `media` parent rows and
the `memory_media` rows. -/
structure DBState where
  memories : List Nat
  media : List Nat
  memory_media : List MMRow
deriving DecidableEq, Repr

/-- UNIQUE(memory_id, media_id): no (memory, media) pair appears twice. -/
def pairsUnique (db : DBState) : Prop :=
  (db.memory_media.map MMRow.pair).Nodup

/-- Foreign-key invariant: every row references an existing memory and an
existing media item. -/
def fkOk (db : DBState) : Prop :=
  ∀ r ∈ db.memory_media, r.memory_id ∈ db.memories ∧ r.media_id ∈ db.media

/-- The invariant of the memory_media table. -/
def dbWf (db : DBState) : Prop := pairsUnique db ∧ fkOk db

instance (db : DBState) : Decidable (pairsUnique db) := by
  unfold pairsUnique; infer_instance

instance (db : DBState) : Decidable (fkOk db) := by
  unfold fkOk; infer_instance

instance (db : DBState) : Decidable (dbWf db) := by
  unfold dbWf; infer_instance

/-- Modelled from the spec: INSERT INTO memory_media (the backend link
endpoint).  The insert is rejected — leaving the state unchanged — when a
foreign key is dangling or the UNIQUE(memory_id, media_id) constraint
would be violated. -/
def linkMedia (db : DBState) (m d : Nat) (ord : Int) : DBState :=
  if m ∈ db.memories ∧ d ∈ db.media ∧
      ∀ r ∈ db.memory_media, ¬(r.memory_id = m ∧ r.media_id = d) then
    ⟨db.memories, db.media, db.memory_media ++ [⟨m, d, ord⟩]⟩
  else db

/-- Modelled from the spec: DELETE FROM memory_media for one
(memory, media) pair (the backend unlink endpoint). -/
def unlinkMedia (db : DBState) (m d : Nat) : DBState :=
  ⟨db.memories, db.media,
   db.memory_media.filter fun r => !(r.memory_id == m && r.media_id == d)⟩

/-- Modelled from the spec: DELETE of a parent `memories` row; ON DELETE
CASCADE removes every memory_media row referencing it. -/
def deleteMemoryRow (db : DBState) (m : Nat) : DBState :=
  ⟨db.memories.filter fun x => x != m, db.media,
   db.memory_media.filter fun r => r.memory_id != m⟩

/-- Modelled from the spec: DELETE of a parent `media` row; ON DELETE
CASCADE removes every memory_media row referencing it. -/
def deleteMediaRow (db : DBState) (d : Nat) : DBState :=
  ⟨db.memories, db.media.filter fun x => x != d,
   db.memory_media.filter fun r => r.media_id != d⟩

/-- Modelled from the spec: INSERT of a parent `memories` row (id primary
key: an existing id is rejected). -/
def addMemoryRow (db : DBState) (m : Nat) : DBState :=
  if m ∈ db.memories then db else ⟨m :: db.memories, db.media, db.memory_media⟩

/-- Modelled from the spec: INSERT of a parent `media` row. -/
def addMediaRow (db : DBState) (d : Nat) : DBState :=
  if d ∈ db.media then db else ⟨db.memories, d :: db.media, db.memory_media⟩

/-- The operations touching the memory_media table and its parents. -/
inductive DbOp where
  | addMemory (m : Nat)
  | addMedia (d : Nat)
  | link (m d : Nat) (ord : Int)
  | unlink (m d : Nat)
  | delMemory (m : Nat)
  | delMedia (d : Nat)
deriving DecidableEq, Repr

/-- Interpretation of one operation. -/
def applyOp (db : DBState) : DbOp → DBState
  | .addMemory m => addMemoryRow db m
  | .addMedia d => addMediaRow db d
  | .link m d ord => linkMedia db m d ord
  | .unlink m d => unlinkMedia db m d
  | .delMemory m => deleteMemoryRow db m
  | .delMedia d => deleteMediaRow db d

/-- Reachable database states: the empty database (the migration creates
the table empty) closed under the operations. -/
inductive DbReachable : DBState → Prop
  | empty : DbReachable ⟨[], [], []⟩
  | step (db : DBState) (op : DbOp) :
      DbReachable db → DbReachable (applyOp db op)

/- ===================================================================
   Helper lemmas.
   =================================================================== -/

/-- A nonempty string has a nonempty character list. -/
theorem string_data_ne_nil {s : String} (h : s ≠ "") : s.data ≠ [] :=
  fun hl => h (congrArg String.mk hl)

/-- Characters produced by `escapeChar` are never raw angle brackets. -/
theorem escapeChar_no_angle (a : Char) :
    ∀ c ∈ escapeChar a, (c != '<' && c != '>') = true := by
  intro c hc
  unfold escapeChar at hc
  split_ifs at hc with h1 h2 h3
  · exact List.all_eq_true.mp
      (by decide : ("&amp;".data.all fun c => c != '<' && c != '>') = true) c hc
  · exact List.all_eq_true.mp
      (by decide : ("&lt;".data.all fun c => c != '<' && c != '>') = true) c hc
  · exact List.all_eq_true.mp
      (by decide : ("&gt;".data.all fun c => c != '<' && c != '>') = true) c hc
  · simp only [List.mem_singleton] at hc
    subst hc
    simp only [Bool.and_eq_true, bne_iff_ne, ne_eq]
    exact ⟨h2, h3⟩

/-- C9: escapeHtml is total, its output never contains a raw angle
bracket — so interpolating it into innerHTML cannot introduce an HTML
element — and the falsy inputs `null`/`undefined` (modelled `none`) and
the empty string are mapped to the empty string. -/
theorem escapeHtml_safe (t : Option String) :
    ((escapeHtml t).data.all fun c => c != '<' && c != '>') = true ∧
    escapeHtml none = "" ∧ escapeHtml (some "") = "" := by
  refine ⟨?_, rfl, rfl⟩
  match t with
  | none => rfl
  | some s =>
    by_cases hs : s = ""
    · simp [escapeHtml, hs]
    · simp only [escapeHtml, hs, if_neg]
      rw [List.all_eq_true]
      intro c hc
      have hc' : c ∈ s.data.flatMap escapeChar := hc
      obtain ⟨a, _, hca⟩ := List.mem_flatMap.mp hc'
      exact escapeChar_no_angle a c hca

/-- C10: when the trimmed memory text is empty, saveMemory shows only the
validation alert and does nothing else — no request is issued, and the
form fields, editing marker and displayed tab are exactly as before. -/
theorem saveMemory_empty_text_noop (s : CaptureState) (resp : FetchOutcome)
    (h : jsTrim s.memoryText = "") :
    saveMemory s resp =
      ⟨s, ["Please write a memory before saving"], []⟩ := by
  unfold saveMemory
  simp [h]

/-- Witness for C10 at a whitespace-only text. -/
theorem saveMemory_empty_text_noop_witness :
    saveMemory ⟨"   ", "1999", none, "capture"⟩ FetchOutcome.networkFailure =
      ⟨⟨"   ", "1999", none, "capture"⟩,
       ["Please write a memory before saving"], []⟩ :=
  saveMemory_empty_text_noop ⟨"   ", "1999", none, "capture"⟩
    FetchOutcome.networkFailure (by decide)

/-- C2: for a nonempty trimmed text and no editing marker, saveMemory
issues exactly the POST to /api/memories/save; when the outcome is not a
parsed success — non-success status, unparsable body, or network
failure — the whole state (in particular the memory-text and memory-date
fields) is unchanged and exactly the corresponding error alert is shown;
the form is cleared (and the tab switched) only on a success outcome. -/
theorem saveMemory_error_keeps_form (s : CaptureState) (resp : FetchOutcome)
    (hid : s.editingId = none) (ht : jsTrim s.memoryText ≠ "") :
    (saveMemory s resp).requests = ["POST /api/memories/save"] ∧
    (resp.isSuccess = false →
      (saveMemory s resp).state = s ∧
      (saveMemory s resp).alerts = [errorAlertText resp]) ∧
    (resp.isSuccess = true →
      (saveMemory s resp).state = ⟨"", "", none, "timeline"⟩) := by
  unfold saveMemory
  cases resp with
  | ok status msg =>
    by_cases hst : status = "success" <;>
      simp [ht, hid, FetchOutcome.isSuccess, errorAlertText, hst]
  | parseFailure =>
    simp [ht, hid, FetchOutcome.isSuccess, errorAlertText]
  | networkFailure =>
    simp [ht, hid, FetchOutcome.isSuccess, errorAlertText]

/-- Witness for C2 at a concrete form state and a 500-style non-success
body. -/
theorem saveMemory_error_keeps_form_witness :
    (saveMemory ⟨"hello", "2000", none, "capture"⟩
        (FetchOutcome.ok "error" "boom")).requests = ["POST /api/memories/save"] ∧
    ((FetchOutcome.ok "error" "boom").isSuccess = false →
      (saveMemory ⟨"hello", "2000", none, "capture"⟩
          (FetchOutcome.ok "error" "boom")).state = ⟨"hello", "2000", none, "capture"⟩ ∧
      (saveMemory ⟨"hello", "2000", none, "capture"⟩
          (FetchOutcome.ok "error" "boom")).alerts =
        [errorAlertText (FetchOutcome.ok "error" "boom")]) ∧
    ((FetchOutcome.ok "error" "boom").isSuccess = true →
      (saveMemory ⟨"hello", "2000", none, "capture"⟩
          (FetchOutcome.ok "error" "boom")).state = ⟨"", "", none, "timeline"⟩) :=
  saveMemory_error_keeps_form ⟨"hello", "2000", none, "capture"⟩
    (FetchOutcome.ok "error" "boom") rfl (by decide)

/-- C8 counterexample: for the memory ⟨text "x", no category, year 0⟩ and
the search term "0", the claim's predicate selects the memory (the string
representation "0" of its year contains the term) but the code's filter
drops it, because `memory.year &&` is falsy for the number 0. -/
theorem loadMemoriesWithSearch_year_zero_cex :
    loadMemoriesWithSearch "0" [⟨"x", none, some 0⟩] = [] ∧
    claimMatchesC8 "0" ⟨"x", none, some 0⟩ = true := by
  decide

/-- Empty lowered haystack contains no nonempty needle. -/
theorem jsIncludes_lower_empty {term : String} (h : term ≠ "") :
    jsIncludes (jsToLower "") (jsToLower term) = false := by
  show containsList [] (term.data.map Char.toLower) = false
  rw [containsList]
  cases hd : term.data with
  | nil => exact absurd hd (string_data_ne_nil h)
  | cons c t => rfl

/-- The code's filter predicate agrees with the amended claim predicate on
every memory once the term is nonempty. -/
theorem memoryMatches_eq_amended {term : String} (h : term ≠ "") (m : Memory) :
    memoryMatches term m = amendedMatchesC8 term m := by
  unfold memoryMatches amendedMatchesC8
  congr 2
  cases hc : m.category with
  | none => rfl
  | some c =>
    by_cases hce : c = ""
    · subst hce
      simp [jsIncludes_lower_empty h]
    · simp [bne_iff_ne, hce]

/-- C8 amended: for every fetched memory list, a nonempty search term
selects exactly those memories whose text contains the term
case-insensitively, or whose category contains the term
case-insensitively, or whose year is present and nonzero and has a string
representation containing the term; the empty search term selects all
memories. -/
theorem loadMemoriesWithSearch_amended (term : String) (memories : List Memory)
    (h : term ≠ "") :
    loadMemoriesWithSearch term memories =
      memories.filter (amendedMatchesC8 term) ∧
    loadMemoriesWithSearch "" memories = memories := by
  constructor
  · unfold loadMemoriesWithSearch
    rw [if_neg h]
    exact List.filter_congr fun m _ => memoryMatches_eq_amended h m
  · rfl

/-- Witness for C8 amended at a concrete term and memory list. -/
theorem loadMemoriesWithSearch_amended_witness :
    loadMemoriesWithSearch "aB"
        [⟨"xAb", none, none⟩, ⟨"q", some "GAB", none⟩, ⟨"q", none, some 1950⟩] =
      List.filter (amendedMatchesC8 "aB")
        [⟨"xAb", none, none⟩, ⟨"q", some "GAB", none⟩, ⟨"q", none, some 1950⟩] ∧
    loadMemoriesWithSearch ""
        [⟨"xAb", none, none⟩, ⟨"q", some "GAB", none⟩, ⟨"q", none, some 1950⟩] =
      [⟨"xAb", none, none⟩, ⟨"q", some "GAB", none⟩, ⟨"q", none, some 1950⟩] :=
  loadMemoriesWithSearch_amended "aB"
    [⟨"xAb", none, none⟩, ⟨"q", some "GAB", none⟩, ⟨"q", none, some 1950⟩]
    (by decide)

/-- The adjacent swap is a permutation of the list. -/
theorem swapAdjacent_perm {α : Type} :
    ∀ (l : List α) (i : Nat), List.Perm (swapAdjacent l i) l
  | [], _ => by simp [swapAdjacent]
  | [a], 0 => by simp [swapAdjacent]
  | [a], _ + 1 => by simp [swapAdjacent]
  | a :: b :: t, 0 => by
    simpa [swapAdjacent] using List.Perm.swap a b t
  | a :: b :: t, n + 1 => by
    simpa [swapAdjacent] using (swapAdjacent_perm (b :: t) n).cons a

/-- The adjacent swap moves the right entry left. -/
theorem swapAdjacent_get_left {α : Type} :
    ∀ (l : List α) (i : Nat), i + 1 < l.length →
      (swapAdjacent l i).get? i = l.get? (i + 1)
  | [], _, h => by simp at h
  | [a], _, h => by simp at h
  | a :: b :: t, 0, _ => rfl
  | a :: b :: t, n + 1, h => by
    have := swapAdjacent_get_left (b :: t) n (by simpa using Nat.lt_of_succ_lt_succ h)
    simpa [swapAdjacent] using this

/-- The adjacent swap moves the left entry right. -/
theorem swapAdjacent_get_right {α : Type} :
    ∀ (l : List α) (i : Nat), i + 1 < l.length →
      (swapAdjacent l i).get? (i + 1) = l.get? i
  | [], _, h => by simp at h
  | [a], _, h => by simp at h
  | a :: b :: t, 0, _ => rfl
  | a :: b :: t, n + 1, h => by
    have := swapAdjacent_get_right (b :: t) n (by simpa using Nat.lt_of_succ_lt_succ h)
    simpa [swapAdjacent] using this

/-- The adjacent swap leaves every other position unchanged. -/
theorem swapAdjacent_get_other {α : Type} :
    ∀ (l : List α) (i j : Nat), j ≠ i → j ≠ i + 1 →
      (swapAdjacent l i).get? j = l.get? j
  | [], _, _, _, _ => by simp [swapAdjacent]
  | [a], 0, j, hj0, _ => by
    simp [swapAdjacent]
  | [a], n + 1, j, _, _ => by
    simp [swapAdjacent]
  | a :: b :: t, 0, 0, hj0, _ => absurd rfl hj0
  | a :: b :: t, 0, 1, _, hj1 => absurd rfl hj1
  | a :: b :: t, 0, k + 2, _, _ => rfl
  | a :: b :: t, n + 1, 0, _, _ => rfl
  | a :: b :: t, n + 1, k + 1, hj0, hj1 => by
    have := swapAdjacent_get_other (b :: t) n k
      (fun hk => hj0 (by omega)) (fun hk => hj1 (by omega))
    simpa [swapAdjacent] using this

/-- C5: moveUp and moveDown only permute the linked-media list.
`moveUp 0` and `moveDown` at the last index return `none` (no reorder
request is issued and the list is untouched); otherwise the returned
order is a permutation of the original in which exactly the two adjacent
entries (i-1, i) — respectively (i, i+1) — are swapped. -/
theorem moveUp_moveDown_permute {α : Type} (l : List α) (i : Nat) :
    moveUp l 0 = none ∧
    (l ≠ [] → moveDown l (l.length - 1) = none) ∧
    (0 < i → i < l.length →
      ∃ l', moveUp l i = some l' ∧
        List.Perm l' l ∧
        l'.get? (i - 1) = l.get? i ∧
        l'.get? i = l.get? (i - 1) ∧
        ∀ j, j ≠ i - 1 → j ≠ i → l'.get? j = l.get? j) ∧
    (i + 1 < l.length →
      ∃ l', moveDown l i = some l' ∧
        List.Perm l' l ∧
        l'.get? i = l.get? (i + 1) ∧
        l'.get? (i + 1) = l.get? i ∧
        ∀ j, j ≠ i → j ≠ i + 1 → l'.get? j = l.get? j) := by
  refine ⟨rfl, ?_, ?_, ?_⟩
  · intro _
    simp [moveDown]
  · intro h0 hlen
    obtain ⟨k, rfl⟩ : ∃ k, i = k + 1 := ⟨i - 1, by omega⟩
    refine ⟨swapAdjacent l k, by simp [moveUp], swapAdjacent_perm l k, ?_, ?_, ?_⟩
    · simpa using swapAdjacent_get_left l k (by omega)
    · simpa using swapAdjacent_get_right l k (by omega)
    · intro j hj1 hj2
      exact swapAdjacent_get_other l k j (by omega) (by omega)
  · intro hlen
    have hne : i ≠ l.length - 1 := by omega
    refine ⟨swapAdjacent l i, by simp [moveDown, hne], swapAdjacent_perm l i,
      swapAdjacent_get_left l i hlen, swapAdjacent_get_right l i hlen, ?_⟩
    intro j hj1 hj2
    exact swapAdjacent_get_other l i j hj1 hj2

/-- Witness for C5 on a concrete three-element list at index 1. -/
theorem moveUp_moveDown_permute_witness :
    (moveUp ([10, 20, 30] : List Nat) 0 = none) ∧
    (∃ l', moveUp ([10, 20, 30] : List Nat) 1 = some l' ∧
      List.Perm l' [10, 20, 30] ∧
      l'.get? 0 = ([10, 20, 30] : List Nat).get? 1 ∧
      l'.get? 1 = ([10, 20, 30] : List Nat).get? 0 ∧
      ∀ j, j ≠ 0 → j ≠ 1 → l'.get? j = ([10, 20, 30] : List Nat).get? j) ∧
    (∃ l', moveDown ([10, 20, 30] : List Nat) 1 = some l' ∧
      List.Perm l' [10, 20, 30] ∧
      l'.get? 1 = ([10, 20, 30] : List Nat).get? 2 ∧
      l'.get? 2 = ([10, 20, 30] : List Nat).get? 1 ∧
      ∀ j, j ≠ 1 → j ≠ 2 → l'.get? j = ([10, 20, 30] : List Nat).get? j) :=
  ⟨(moveUp_moveDown_permute ([10, 20, 30] : List Nat) 1).1,
   (moveUp_moveDown_permute ([10, 20, 30] : List Nat) 1).2.2.1
     (by decide) (by decide),
   (moveUp_moveDown_permute ([10, 20, 30] : List Nat) 1).2.2.2
     (by decide)⟩

/-- Tally bookkeeping of the upload loop: one success or one error (with
one error string) per file, one request per file, in order. -/
theorem uploadLoop_counts (files : List MFile) (outcome : MFile → UploadOutcome) :
    (uploadLoop files outcome).successCount + (uploadLoop files outcome).errorCount
      = files.length ∧
    (uploadLoop files outcome).errors.length = (uploadLoop files outcome).errorCount ∧
    (uploadLoop files outcome).requests = files.map MFile.name := by
  induction files with
  | nil => exact ⟨rfl, rfl, rfl⟩
  | cons f fs ih =>
    obtain ⟨ih1, ih2, ih3⟩ := ih
    cases hf : outcome f <;>
      simp [uploadLoop, hf, ih2, ih3] <;> omega

/-- Requests recorded in the trace of a full upload run. -/
theorem eventRequests_of_run (reqs : List String) (msgs : List MMEvent)
    (hmsgs : ∀ e ∈ msgs, ∃ k t, e = MMEvent.message k t) :
    eventRequests (MMEvent.setFlag ::
      (reqs.map MMEvent.request ++ MMEvent.clearFlag :: msgs)) = reqs := by
  unfold eventRequests
  rw [List.filterMap_cons, List.filterMap_append, List.filterMap_cons]
  have h1 : List.filterMap
      (fun e => match e with | MMEvent.request n => some n | _ => none)
      (reqs.map MMEvent.request) = reqs := by
    induction reqs with
    | nil => rfl
    | cons r rs ih => simp [List.filterMap_cons, ih]
  have h2 : List.filterMap
      (fun e => match e with | MMEvent.request n => some n | _ => none) msgs = [] := by
    rw [List.filterMap_eq_nil_iff]
    intro e he
    obtain ⟨k, t, rfl⟩ := hmsgs e he
    rfl
  simp [h1, h2]

/-- The summary banners of handleUpload are message events. -/
theorem handleUpload_msgs_are_messages (r : UploadRun) :
    ∀ e ∈ ((if 0 < r.successCount then
        [MMEvent.message "success"
          ("Successfully uploaded " ++ toString r.successCount ++ " file(s)")]
       else []) ++
      (if 0 < r.errorCount then
        [MMEvent.message "error"
          ("Failed to upload " ++ toString r.errorCount ++ " file(s): "
            ++ String.intercalate "; " r.errors)]
       else [])), ∃ k t, e = MMEvent.message k t := by
  intro e he
  rw [List.mem_append] at he
  rcases he with he | he <;> split_ifs at he <;>
    simp only [List.mem_singleton, List.not_mem_nil] at he <;>
    first
    | exact absurd he (by simp)
    | exact ⟨_, _, he⟩

/-- C3: during a multi-file upload every selected file is attempted
exactly once with no retry — the request trace of handleUpload lists each
selected file once, in order — and each attempt is tallied as exactly one
success or one failure, so successCount + errorCount equals the number of
selected files, with one error entry recorded per failed file. -/
theorem handleUpload_tally (st : MMState) (outcome : MFile → UploadOutcome)
    (hne : st.selectedFiles ≠ []) (hprog : st.uploadInProgress = false) :
    (uploadLoop st.selectedFiles outcome).successCount
        + (uploadLoop st.selectedFiles outcome).errorCount
      = st.selectedFiles.length ∧
    (uploadLoop st.selectedFiles outcome).errors.length
      = (uploadLoop st.selectedFiles outcome).errorCount ∧
    eventRequests (handleUpload st outcome).2 = st.selectedFiles.map MFile.name := by
  obtain ⟨h1, h2, h3⟩ := uploadLoop_counts st.selectedFiles outcome
  refine ⟨h1, h2, ?_⟩
  unfold handleUpload
  rw [if_neg (by simpa [List.isEmpty_iff] using hne), if_neg (by simp [hprog])]
  simp only []
  rw [eventRequests_of_run _ _ (handleUpload_msgs_are_messages _)]
  exact h3

/-- Witness for C3: two files, one succeeding and one failing. -/
theorem handleUpload_tally_witness :
    (uploadLoop [⟨"a.jpg", "image/jpeg", 5⟩, ⟨"b.png", "image/png", 6⟩]
        (fun f => if f.name = "a.jpg" then .success else .httpFailure "Upload failed")).successCount
        + (uploadLoop [⟨"a.jpg", "image/jpeg", 5⟩, ⟨"b.png", "image/png", 6⟩]
            (fun f => if f.name = "a.jpg" then .success else .httpFailure "Upload failed")).errorCount
      = ([⟨"a.jpg", "image/jpeg", 5⟩, ⟨"b.png", "image/png", 6⟩] : List MFile).length ∧
    (uploadLoop [⟨"a.jpg", "image/jpeg", 5⟩, ⟨"b.png", "image/png", 6⟩]
        (fun f => if f.name = "a.jpg" then .success else .httpFailure "Upload failed")).errors.length
      = (uploadLoop [⟨"a.jpg", "image/jpeg", 5⟩, ⟨"b.png", "image/png", 6⟩]
          (fun f => if f.name = "a.jpg" then .success else .httpFailure "Upload failed")).errorCount ∧
    eventRequests (handleUpload
        ⟨[⟨"a.jpg", "image/jpeg", 5⟩, ⟨"b.png", "image/png", 6⟩], false⟩
        (fun f => if f.name = "a.jpg" then .success else .httpFailure "Upload failed")).2
      = ([⟨"a.jpg", "image/jpeg", 5⟩, ⟨"b.png", "image/png", 6⟩] : List MFile).map MFile.name :=
  handleUpload_tally
    ⟨[⟨"a.jpg", "image/jpeg", 5⟩, ⟨"b.png", "image/png", 6⟩], false⟩
    (fun f => if f.name = "a.jpg" then .success else .httpFailure "Upload failed")
    (by decide) rfl

/-- Temporal shape of an upload trace: the in-progress flag is set first,
only upload requests happen until the flag is cleared, and only user
messages follow the clearing. -/
def flagDiscipline (tr : List MMEvent) : Prop :=
  ∃ mid msgs, tr = MMEvent.setFlag :: (mid ++ MMEvent.clearFlag :: msgs) ∧
    (∀ e ∈ mid, ∃ n, e = MMEvent.request n) ∧
    (∀ e ∈ msgs, ∃ k t, e = MMEvent.message k t)

/-- C4: whenever uploadInProgress is true, a further handleUpload
invocation leaves the state untouched and issues no upload request; and
an actual upload run (flag clear, nonempty selection) sets the flag
before its first request and clears it only after the last file has been
processed, ending with the flag clear. -/
theorem handleUpload_no_duplicate (st : MMState) (outcome : MFile → UploadOutcome) :
    (st.uploadInProgress = true →
      (handleUpload st outcome).1 = st ∧
      eventRequests (handleUpload st outcome).2 = []) ∧
    (st.uploadInProgress = false → st.selectedFiles ≠ [] →
      (handleUpload st outcome).1.uploadInProgress = false ∧
      flagDiscipline (handleUpload st outcome).2) := by
  constructor
  · intro hprog
    unfold handleUpload
    by_cases hsel : st.selectedFiles.isEmpty
    · rw [if_pos hsel]
      exact ⟨rfl, rfl⟩
    · rw [if_neg hsel, if_pos hprog]
      exact ⟨rfl, rfl⟩
  · intro hprog hne
    unfold handleUpload
    rw [if_neg (by simpa [List.isEmpty_iff] using hne), if_neg (by simp [hprog])]
    refine ⟨rfl, (uploadLoop st.selectedFiles outcome).requests.map MMEvent.request,
      _, rfl, ?_, handleUpload_msgs_are_messages _⟩
    intro e he
    obtain ⟨n, _, rfl⟩ := List.mem_map.mp he
    exact ⟨n, rfl⟩

/-- Witness for C4: a blocked invocation (flag already set) and a real run
on one file. -/
theorem handleUpload_no_duplicate_witness :
    ((handleUpload ⟨[⟨"a.jpg", "image/jpeg", 5⟩], true⟩ (fun _ => .success)).1 =
        ⟨[⟨"a.jpg", "image/jpeg", 5⟩], true⟩ ∧
      eventRequests
        (handleUpload ⟨[⟨"a.jpg", "image/jpeg", 5⟩], true⟩ (fun _ => .success)).2 = []) ∧
    ((handleUpload ⟨[⟨"a.jpg", "image/jpeg", 5⟩], false⟩
        (fun _ => .success)).1.uploadInProgress = false ∧
      flagDiscipline
        (handleUpload ⟨[⟨"a.jpg", "image/jpeg", 5⟩], false⟩ (fun _ => .success)).2) :=
  ⟨(handleUpload_no_duplicate ⟨[⟨"a.jpg", "image/jpeg", 5⟩], true⟩ (fun _ => .success)).1 rfl,
   (handleUpload_no_duplicate ⟨[⟨"a.jpg", "image/jpeg", 5⟩], false⟩ (fun _ => .success)).2
     rfl (by decide)⟩

/-- C7: after any handleFileSelect call on a previously valid selection,
every file retained in selectedFiles has an allowed MIME type or an
allowed lowercased filename extension, and a size of at most
50*1024*1024 bytes; invalid or oversized files are never placed in the
selection, and when no valid file is among the chosen ones the selection
is rejected with an error message and left as it was. -/
theorem handleFileSelect_valid (old input : List MFile)
    (hold : ∀ f ∈ old, isValidFile f = true ∧ f.size ≤ maxFileSize) :
    (∀ f ∈ (handleFileSelect old input).1,
        isValidFile f = true ∧ f.size ≤ maxFileSize) ∧
    ((input.filter isValidFile).isEmpty = true →
      (handleFileSelect old input).1 = old ∧
      (handleFileSelect old input).2 =
        [("error",
          "No valid files selected. Please select images, PDFs, audio, or video files.")]) := by
  unfold handleFileSelect
  by_cases hv : (input.filter isValidFile).isEmpty
  · rw [if_pos hv]
    exact ⟨hold, fun _ => ⟨rfl, rfl⟩⟩
  · rw [if_neg hv]
    by_cases hov : ((input.filter isValidFile).filter
        fun f => decide (maxFileSize < f.size)).isEmpty
    · rw [if_pos hov]
      refine ⟨?_, fun h => absurd h hv⟩
      intro f hf
      rw [List.mem_filter] at hf
      refine ⟨hf.2, ?_⟩
      rw [List.isEmpty_iff, List.filter_eq_nil_iff] at hov
      have := hov f (List.mem_filter.mpr hf)
      simpa using this
    · rw [if_neg hov]
      refine ⟨?_, fun h => absurd h hv⟩
      intro f hf
      rw [List.mem_filter, List.mem_filter] at hf
      exact ⟨hf.1.2, by simpa using hf.2⟩

/-- Witness for C7: an empty previous selection, one valid image and one
invalid executable among the chosen files. -/
theorem handleFileSelect_valid_witness :
    (∀ f ∈ (handleFileSelect []
        [⟨"a.jpg", "image/jpeg", 10⟩, ⟨"b.exe", "application/x-dosexec", 5⟩]).1,
      isValidFile f = true ∧ f.size ≤ maxFileSize) ∧
    (((([⟨"a.jpg", "image/jpeg", 10⟩, ⟨"b.exe", "application/x-dosexec", 5⟩] :
          List MFile).filter isValidFile).isEmpty = true) →
      (handleFileSelect []
          [⟨"a.jpg", "image/jpeg", 10⟩, ⟨"b.exe", "application/x-dosexec", 5⟩]).1 = [] ∧
      (handleFileSelect []
          [⟨"a.jpg", "image/jpeg", 10⟩, ⟨"b.exe", "application/x-dosexec", 5⟩]).2 =
        [("error",
          "No valid files selected. Please select images, PDFs, audio, or video files.")]) :=
  handleFileSelect_valid []
    [⟨"a.jpg", "image/jpeg", 10⟩, ⟨"b.exe", "application/x-dosexec", 5⟩]
    (by simp)

/-- C6: editChapter stores the displayed narrative under the chapter id
unless a truthy entry is already there; provided a truthy pre-existing
entry holds the chapter's last generated or saved text (which is what the
display and save paths put there), editChapter followed by any sequence
of textarea changes and cancelChapterEdit restores the displayed
narrative to exactly the text held in originalTexts at the time editing
began — the edit-then-cancel round trip leaves the narrative unchanged. -/
theorem editChapter_cancel_roundtrip (st : BioState) (ch : ChapterView)
    (chapterId : String) (edits : List String)
    (hinv : truthyStr (st.originalTexts chapterId) = true →
      st.originalTexts chapterId = some ch.narrative) :
    (editChapter st ch chapterId).1.originalTexts chapterId = some ch.narrative ∧
    (cancelChapterEdit (editChapter st ch chapterId).1
        (edits.foldl setTextarea (editChapter st ch chapterId).2)
        chapterId).2.narrative = ch.narrative := by
  unfold editChapter cancelChapterEdit
  by_cases htr : truthyStr (st.originalTexts chapterId) = true
  · have he := hinv htr
    have htr2 : truthyStr (some ch.narrative) = true := he ▸ htr
    simp [he, htr2]
  · simp [htr]

/-- Witness for C6 at a chapter whose stored original equals its displayed
text, with two textarea edits before cancelling. -/
theorem editChapter_cancel_roundtrip_witness :
    (editChapter ⟨fun _ => some "The house.", false⟩ ⟨"The house.", none⟩
        "claude-chapter-0").1.originalTexts "claude-chapter-0" = some "The house." ∧
    (cancelChapterEdit
        (editChapter ⟨fun _ => some "The house.", false⟩ ⟨"The house.", none⟩
          "claude-chapter-0").1
        (["draft one", "draft two"].foldl setTextarea
          (editChapter ⟨fun _ => some "The house.", false⟩ ⟨"The house.", none⟩
            "claude-chapter-0").2)
        "claude-chapter-0").2.narrative = "The house." :=
  editChapter_cancel_roundtrip ⟨fun _ => some "The house.", false⟩
    ⟨"The house.", none⟩ "claude-chapter-0" ["draft one", "draft two"]
    (fun _ => rfl)

/-- Filtering the table preserves uniqueness of the (memory, media)
pairs. -/
theorem nodup_pairs_filter {rows : List MMRow} (p : MMRow → Bool)
    (h : (rows.map MMRow.pair).Nodup) :
    ((rows.filter p).map MMRow.pair).Nodup :=
  List.Nodup.sublist (List.Sublist.map MMRow.pair (List.filter_sublist rows)) h

/-- Every table operation preserves the memory_media invariant. -/
theorem applyOp_preserves_wf (db : DBState) (op : DbOp) (h : dbWf db) :
    dbWf (applyOp db op) := by
  obtain ⟨hu, hfk⟩ := h
  cases op with
  | addMemory m =>
    simp only [applyOp]
    unfold addMemoryRow
    by_cases hm : m ∈ db.memories
    · rw [if_pos hm]; exact ⟨hu, hfk⟩
    · rw [if_neg hm]
      refine ⟨hu, fun r hr => ?_⟩
      obtain ⟨h1, h2⟩ := hfk r hr
      exact ⟨List.mem_cons_of_mem _ h1, h2⟩
  | addMedia d =>
    simp only [applyOp]
    unfold addMediaRow
    by_cases hd : d ∈ db.media
    · rw [if_pos hd]; exact ⟨hu, hfk⟩
    · rw [if_neg hd]
      refine ⟨hu, fun r hr => ?_⟩
      obtain ⟨h1, h2⟩ := hfk r hr
      exact ⟨h1, List.mem_cons_of_mem _ h2⟩
  | link m d ord =>
    simp only [applyOp]
    unfold linkMedia
    split_ifs with hc
    · obtain ⟨hm, hd, hnew⟩ := hc
      constructor
      · unfold pairsUnique
        simp only [List.map_append, List.map_cons, List.map_nil]
        rw [List.nodup_append]
        refine ⟨hu, List.nodup_singleton _, fun x hx hx' => ?_⟩
        simp only [List.mem_singleton] at hx'
        subst hx'
        obtain ⟨r, hr, hpair⟩ := List.mem_map.mp hx
        have : r.memory_id = m ∧ r.media_id = d := by
          have := congrArg Prod.fst hpair
          have := congrArg Prod.snd hpair
          exact ⟨by assumption, by assumption⟩
        exact hnew r hr this
      · intro r hr
        rw [List.mem_append] at hr
        rcases hr with hr | hr
        · exact hfk r hr
        · simp only [List.mem_singleton] at hr
          subst hr
          exact ⟨hm, hd⟩
    · exact ⟨hu, hfk⟩
  | unlink m d =>
    simp only [applyOp]
    unfold unlinkMedia
    exact ⟨nodup_pairs_filter _ hu, fun r hr => hfk r (List.mem_of_mem_filter hr)⟩
  | delMemory m =>
    simp only [applyOp]
    unfold deleteMemoryRow
    refine ⟨nodup_pairs_filter _ hu, fun r hr => ?_⟩
    rw [List.mem_filter] at hr
    obtain ⟨h1, h2⟩ := hfk r hr.1
    exact ⟨List.mem_filter.mpr ⟨h1, hr.2⟩, h2⟩
  | delMedia d =>
    simp only [applyOp]
    unfold deleteMediaRow
    refine ⟨nodup_pairs_filter _ hu, fun r hr => ?_⟩
    rw [List.mem_filter] at hr
    obtain ⟨h1, h2⟩ := hfk r hr.1
    exact ⟨h1, List.mem_filter.mpr ⟨h2, hr.2⟩⟩

/-- C1: every reachable memory_media state satisfies the invariant — a
(memory, media) pair appears in at most one row and every row references
an existing memory and media row — every operation preserves it, and
deleting a parent memory or media row removes exactly the memory_media
rows referencing it. -/
theorem memory_media_invariant :
    (∀ db, DbReachable db → dbWf db) ∧
    (∀ db op, dbWf db → dbWf (applyOp db op)) ∧
    (∀ db m r, r ∈ (deleteMemoryRow db m).memory_media ↔
      (r ∈ db.memory_media ∧ r.memory_id ≠ m)) ∧
    (∀ db d r, r ∈ (deleteMediaRow db d).memory_media ↔
      (r ∈ db.memory_media ∧ r.media_id ≠ d)) := by
  refine ⟨?_, applyOp_preserves_wf, ?_, ?_⟩
  · intro db h
    induction h with
    | empty => exact ⟨List.nodup_nil, fun r hr => absurd hr (List.not_mem_nil r)⟩
    | step db op _ ih => exact applyOp_preserves_wf db op ih
  · intro db m r
    unfold deleteMemoryRow
    rw [List.mem_filter]
    simp [bne_iff_ne]
  · intro db d r
    unfold deleteMediaRow
    rw [List.mem_filter]
    simp [bne_iff_ne]

/-- Witness for C1: a memory and a media row are inserted and linked, then
the parent memory is deleted; the resulting state is reachable and
well-formed, and the cascade removed the link row. -/
theorem memory_media_invariant_witness :
    dbWf (applyOp (applyOp (applyOp (applyOp ⟨[], [], []⟩
        (DbOp.addMemory 1)) (DbOp.addMedia 2)) (DbOp.link 1 2 0))
        (DbOp.delMemory 1)) ∧
    ((⟨1, 2, 0⟩ : MMRow) ∈ (deleteMemoryRow ⟨[1], [2], [⟨1, 2, 0⟩]⟩ 1).memory_media ↔
      ((⟨1, 2, 0⟩ : MMRow) ∈ ([⟨1, 2, 0⟩] : List MMRow) ∧ (1 : Nat) ≠ 1)) :=
  ⟨memory_media_invariant.1 _
    (.step _ _ (.step _ _ (.step _ _ (.step _ _ .empty)))),
   memory_media_invariant.2.2.1 ⟨[1], [2], [⟨1, 2, 0⟩]⟩ 1 ⟨1, 2, 0⟩⟩
